import Mathlib

/-!
# Content-type reconciliation of `resource_contentful_contenttype.go`

A shallow embedding of the field differ `checkFieldChanges` and of the drivers
`resourceContentTypeCreate` / `resourceContentTypeUpdate`, followed by the
properties established about them.

Conventions of the embedding:

* a Go slice that is only ever built with `append` from a `var` declaration is
  a `List`; such a slice is `nil` exactly when it is empty, so `x != nil`
  becomes `x ≠ []`;
* a `*schema.Set` is represented by the sequence its `List()` method returns;
* the remote API is a deterministic environment: the answer to a call is a
  function of the calls made so far and of the arguments of the call;
* a method that mutates its receiver returns the new value of the receiver,
  and values are immutable: a remote method leaves the field lists held in
  local variables of the caller as they are.
-/

set_option autoImplicit false

namespace TerraformContentful

/-- An element of the `field` set of the resource: the `map[string]interface{}`
whose seven keys and their Go types are fixed by the resource schema
(source lines 46-80). -/
structure FieldItem where
  id : String
  name : String
  type : String
  required : Bool
  localized : Bool
  disabled : Bool
  omitted : Bool
  deriving DecidableEq

/-- The attributes of `contentful.Field` that this file assigns. -/
structure Field where
  ID : String
  Name : String
  Type_ : String
  Localized : Bool
  Required : Bool
  Disabled : Bool
  Omitted : Bool
  deriving DecidableEq

/-- Inner loop of `checkFieldChanges` (source lines 237-242): walks `new`,
and on the first element with the id of `oldField` clears the flag and breaks. -/
def scanNewFields (oldField : FieldItem) (fieldRemoved : Bool) : List FieldItem → Bool
  | [] => fieldRemoved
  | newField :: rest =>
    if oldField.id = newField.id then false
    else scanNewFields oldField fieldRemoved rest

/-- One iteration of the outer loop of `checkFieldChanges` (source lines 236-255). -/
def deletedFieldsStep (new : List FieldItem) (deletedFields : List Field)
    (oldField : FieldItem) : List Field :=
  let fieldRemoved := scanNewFields oldField true new
  if fieldRemoved then
    deletedFields ++
      [{ ID := oldField.id
         Name := oldField.name
         Type_ := oldField.type
         Localized := oldField.localized
         Required := oldField.required
         Disabled := oldField.disabled
         Omitted := true }]
  else deletedFields

/-- One iteration of the second loop of `checkFieldChanges` (source lines 258-269). -/
def existingFieldsStep (existingFields : List Field) (field : FieldItem) : List Field :=
  existingFields ++
    [{ ID := field.id
       Name := field.name
       Type_ := field.type
       Localized := field.localized
       Required := field.required
       Disabled := field.disabled
       Omitted := field.omitted }]

/-- The differ `checkFieldChanges(old, new)` (source lines 230-272); the result
is the pair `(existingFields, deletedFields)`. -/
def checkFieldChanges (old new : List FieldItem) : List Field × List Field :=
  let deletedFields := old.foldl (deletedFieldsStep new) []
  let existingFields := new.foldl existingFieldsStep []
  (existingFields, deletedFields)

/-! ### The remote API and the resource data of the host -/

/-- A Go `error` value as returned by the remote client. -/
abbrev Err := String

/-- The `Sys` block of a remote object: identity and optimistic version. -/
structure Sys where
  ID : String
  Version : Int
  deriving DecidableEq

/-- The attributes of `contentful.ContentType` that this file reads or writes. -/
structure ContentType where
  Sys : Sys
  Name : String
  Description : String
  DisplayField : String
  Fields : List Field
  deriving DecidableEq

/-- A resolved space, as returned by `client.GetSpace`. -/
structure Space where
  ID : String
  deriving DecidableEq

/-- The method `space.NewContentType()`: a local, unsaved content type with
every attribute at its zero value. -/
def Space.NewContentType (_space : Space) : ContentType :=
  { Sys := { ID := "", Version := 0 }
    Name := ""
    Description := ""
    DisplayField := ""
    Fields := [] }

/-- A call made to the remote API, with its arguments. -/
inductive Call where
  | GetSpace (spaceID : String)
  | GetContentType (space : Space) (id : String)
  | Save (ct : ContentType)
  | Activate (ct : ContentType)
  | Delete (ct : ContentType)
  deriving DecidableEq

/-- The method a call invokes, without its arguments. -/
inductive CallKind where
  | GetSpace
  | GetContentType
  | Save
  | Activate
  | Delete
  deriving DecidableEq

/-- The method invoked by a call. -/
def Call.kind : Call → CallKind
  | .GetSpace _ => .GetSpace
  | .GetContentType _ _ => .GetContentType
  | .Save _ => .Save
  | .Activate _ => .Activate
  | .Delete _ => .Delete

/-- One entry of the remote call trace: the call and the error it returned
(`none` for a `nil` error). -/
structure Event where
  call : Call
  err : Option Err
  deriving DecidableEq

/-- The remote API as an environment. Each method receives the trace of the
calls made before it; `Save` and `Activate` return the new value of the
receiver they mutate. -/
structure Remote where
  GetSpace : List Event → String → Except Err Space
  GetContentType : List Event → Space → String → Except Err ContentType
  Save : List Event → ContentType → Except Err ContentType
  Activate : List Event → ContentType → Except Err ContentType

/-- The `schema.ResourceData` the host passes for this resource: the resource id
(`d.Id()`, empty when unset), the computed `version` attribute (`none` when
never recorded), the declared attributes, and the prior and the declared value
of the `field` set, each as the sequence `List()` yields. -/
structure ResourceData where
  Id : String
  version : Option Int
  space_id : String
  name : String
  description : String
  display_field : String
  fieldOld : List FieldItem
  field : List FieldItem
  deriving DecidableEq

/-- The call `d.HasChange("field")`: whether the prior and the declared value differ. -/
def ResourceData.HasChangeField (d : ResourceData) : Bool :=
  decide (d.fieldOld ≠ d.field)

/-- The call `d.GetChange("field")`: the prior and the declared value. -/
def ResourceData.GetChangeField (d : ResourceData) : List FieldItem × List FieldItem :=
  (d.fieldOld, d.field)

/-- The call `d.Set("version", v)` with an `int` value: the schema declares
`version` as `TypeInt`, so the write is accepted. -/
def ResourceData.SetVersion (d : ResourceData) (v : Int) : Except Err ResourceData :=
  .ok { d with version := some v }

/-- The call `d.SetId(id)`. -/
def ResourceData.SetId (d : ResourceData) (id : String) : ResourceData :=
  { d with Id := id }

/-- What an invocation of a resource function leaves behind: the returned
error (`none` for `nil`), the resource data afterwards, and the trace of
remote calls in the order they were made. -/
structure Run where
  err : Option Err
  d : ResourceData
  trace : List Event
  deriving DecidableEq

/-- The function `setContentTypeProperties` (source lines 221-228). -/
def setContentTypeProperties (d : ResourceData) (ct : ContentType) :
    Option Err × ResourceData :=
  match d.SetVersion ct.Sys.Version with
  | .error e => (some e, d)
  | .ok d1 => (none, d1)

/-- One iteration of the field loop of `resourceContentTypeCreate`
(source lines 100-110). -/
def createFieldsStep (ct : ContentType) (field : FieldItem) : ContentType :=
  { ct with
    Fields := ct.Fields ++
      [{ ID := field.id
         Name := field.name
         Type_ := field.type
         Localized := field.localized
         Required := field.required
         Disabled := field.disabled
         Omitted := field.omitted }] }

/-- The content type `resourceContentTypeCreate` has built when it calls
`Save` (source lines 95-110). -/
def createContentType (d : ResourceData) (space : Space) : ContentType :=
  let ct := space.NewContentType
  let ct := { ct with Name := d.name }
  let ct := { ct with DisplayField := d.display_field }
  let ct := { ct with Description := d.description }
  d.field.foldl createFieldsStep ct

/-- The function `resourceContentTypeCreate` (source lines 87-128). -/
def resourceContentTypeCreate (d : ResourceData) (m : Remote) : Run :=
  match m.GetSpace [] d.space_id with
  | .error e => ⟨some e, d, [⟨.GetSpace d.space_id, some e⟩]⟩
  | .ok space =>
    let t1 : List Event := [⟨.GetSpace d.space_id, none⟩]
    let ct := createContentType d space
    match m.Save t1 ct with
    | .error e => ⟨some e, d, t1 ++ [⟨.Save ct, some e⟩]⟩
    | .ok ct1 =>
      let t2 := t1 ++ [⟨.Save ct, none⟩]
      match m.Activate t2 ct1 with
      | .error e => ⟨some e, d, t2 ++ [⟨.Activate ct1, some e⟩]⟩
      | .ok ct2 =>
        let t3 := t2 ++ [⟨.Activate ct1, none⟩]
        match setContentTypeProperties d ct2 with
        | (some e, d1) => ⟨some e, d1, t3⟩
        | (none, d1) => ⟨none, d1.SetId ct2.Sys.ID, t3⟩

/-- The scalar assignments of `resourceContentTypeUpdate` (source lines 159-161). -/
def updateScalars (d : ResourceData) (ct : ContentType) : ContentType :=
  let ct := { ct with Name := d.name }
  let ct := { ct with DisplayField := d.display_field }
  let ct := { ct with Description := d.description }
  ct

/-- The block of `resourceContentTypeUpdate` that decides the field
collection (source lines 164-174), from the content type as it stands after
the scalar assignments; the result is `(existingFields, deletedFields, ct)`, the first two
being `nil` when the block is skipped. -/
def updateFields (d : ResourceData) (ct : ContentType) :
    List Field × List Field × ContentType :=
  if d.HasChangeField then
    let old := d.GetChangeField.1
    let new := d.GetChangeField.2
    let existingFields := (checkFieldChanges old new).1
    let deletedFields := (checkFieldChanges old new).2
    let ct := { ct with Fields := existingFields }
    let ct :=
      if deletedFields ≠ [] then { ct with Fields := ct.Fields ++ deletedFields }
      else ct
    (existingFields, deletedFields, ct)
  else ([], [], ct)

/-- The function `resourceContentTypeUpdate` (source lines 143-199). -/
def resourceContentTypeUpdate (d : ResourceData) (m : Remote) : Run :=
  match m.GetSpace [] d.space_id with
  | .error e => ⟨some e, d, [⟨.GetSpace d.space_id, some e⟩]⟩
  | .ok space =>
    let t1 : List Event := [⟨.GetSpace d.space_id, none⟩]
    match m.GetContentType t1 space d.Id with
    | .error e => ⟨some e, d, t1 ++ [⟨.GetContentType space d.Id, some e⟩]⟩
    | .ok ct =>
      let t2 := t1 ++ [⟨.GetContentType space d.Id, none⟩]
      let ct := updateScalars d ct
      let existingFields := (updateFields d ct).1
      let deletedFields := (updateFields d ct).2.1
      let ct := (updateFields d ct).2.2
      match m.Save t2 ct with
      | .error e => ⟨some e, d, t2 ++ [⟨.Save ct, some e⟩]⟩
      | .ok ct1 =>
        let t3 := t2 ++ [⟨.Save ct, none⟩]
        match m.Activate t3 ct1 with
        | .error e => ⟨some e, d, t3 ++ [⟨.Activate ct1, some e⟩]⟩
        | .ok ct2 =>
          let t4 := t3 ++ [⟨.Activate ct1, none⟩]
          if deletedFields ≠ [] then
            let ct3 := { ct2 with Fields := existingFields }
            match m.Save t4 ct3 with
            | .error e => ⟨some e, d, t4 ++ [⟨.Save ct3, some e⟩]⟩
            | .ok ct4 =>
              let t5 := t4 ++ [⟨.Save ct3, none⟩]
              match m.Activate t5 ct4 with
              | .error e => ⟨some e, d, t5 ++ [⟨.Activate ct4, some e⟩]⟩
              | .ok ct5 =>
                let t6 := t5 ++ [⟨.Activate ct4, none⟩]
                let r := setContentTypeProperties d ct5
                ⟨r.1, r.2, t6⟩
          else
            let r := setContentTypeProperties d ct2
            ⟨r.1, r.2, t4⟩

/-! ### Concrete inputs used to exercise the definitions -/

/-- A declared field with id `a`. -/
def fieldA : FieldItem :=
  { id := "a", name := "Title", type := "Text", required := true, localized := false,
    disabled := false, omitted := false }

/-- The field of id `a` again, with every other attribute changed. -/
def fieldA2 : FieldItem :=
  { id := "a", name := "Heading", type := "Symbol", required := false, localized := true,
    disabled := true, omitted := true }

/-- A declared field with id `b`, enabled and not omitted (the schema defaults). -/
def fieldB : FieldItem :=
  { id := "b", name := "Body", type := "Text", required := true, localized := false,
    disabled := false, omitted := false }

/-- A declared field with id `c`. -/
def fieldC : FieldItem :=
  { id := "c", name := "Count", type := "Integer", required := false, localized := false,
    disabled := false, omitted := false }

/-- The remote content type of id `ct1` at version 3, with fields `a` and `b`. -/
def remoteContentType : ContentType :=
  { Sys := { ID := "ct1", Version := 3 }
    Name := "Article"
    Description := "first draft"
    DisplayField := "a"
    Fields :=
      [{ ID := "a", Name := "Title", Type_ := "Text", Localized := false, Required := true,
         Disabled := false, Omitted := false },
       { ID := "b", Name := "Body", Type_ := "Text", Localized := false, Required := true,
         Disabled := false, Omitted := false }] }

/-- How the example remotes answer a successful `Save`: an object without
identity is given the id `ct1`, and the version is incremented. -/
def savedContentType (ct : ContentType) : ContentType :=
  { ct with
    Sys := { ID := if ct.Sys.ID = "" then "ct1" else ct.Sys.ID
             Version := ct.Sys.Version + 1 } }

/-- A remote on which every call succeeds. -/
def remoteOk : Remote :=
  { GetSpace := fun _ spaceID => .ok { ID := spaceID }
    GetContentType := fun _ _ _ => .ok remoteContentType
    Save := fun _ ct => .ok (savedContentType ct)
    Activate := fun _ ct => .ok ct }

/-- A remote on which `Save` succeeds and `Activate` fails. -/
def remoteActivateFails : Remote :=
  { GetSpace := fun _ spaceID => .ok { ID := spaceID }
    GetContentType := fun _ _ _ => .ok remoteContentType
    Save := fun _ ct => .ok (savedContentType ct)
    Activate := fun _ _ => .error "activation failed" }

/-- A remote whose first `Save` succeeds and whose later ones are rejected. -/
def remoteSecondSaveFails : Remote :=
  { GetSpace := fun _ spaceID => .ok { ID := spaceID }
    GetContentType := fun _ _ _ => .ok remoteContentType
    Save := fun trace ct =>
      if trace.length < 4 then .ok (savedContentType ct) else .error "version conflict"
    Activate := fun _ ct => .ok ct }

/-- Resource data of a resource not yet created, declaring fields `a` and `b`. -/
def dataCreate : ResourceData :=
  { Id := ""
    version := none
    space_id := "space"
    name := "Article"
    description := "first draft"
    display_field := "a"
    fieldOld := []
    field := [fieldA, fieldB] }

/-- Resource data of an update that removes field `b` and adds field `c`. -/
def dataRemoveB : ResourceData :=
  { Id := "ct1"
    version := some 3
    space_id := "space"
    name := "Article"
    description := "first draft"
    display_field := "a"
    fieldOld := [fieldA, fieldB]
    field := [fieldA, fieldC] }

/-- Resource data of an update that changes the description only. -/
def dataDescriptionOnly : ResourceData :=
  { Id := "ct1"
    version := some 3
    space_id := "space"
    name := "Article"
    description := "second draft"
    display_field := "a"
    fieldOld := [fieldA, fieldB]
    field := [fieldA, fieldB] }

/-! ### Shared lemmas about the differ -/

theorem scanNewFields_true (o : FieldItem) (new : List FieldItem) :
    scanNewFields o true new = true ↔ ∀ n ∈ new, o.id ≠ n.id := by
  induction new with
  | nil => simp [scanNewFields]
  | cons n rest ih =>
    by_cases h : o.id = n.id
    · simp [scanNewFields, h]
    · simp [scanNewFields, h, ih]

theorem foldl_deletedFieldsStep (new : List FieldItem) (old : List FieldItem)
    (acc : List Field) :
    old.foldl (deletedFieldsStep new) acc =
      acc ++ (old.filter (fun o => scanNewFields o true new)).map
        (fun o => { ID := o.id, Name := o.name, Type_ := o.type, Localized := o.localized,
                    Required := o.required, Disabled := o.disabled, Omitted := true }) := by
  induction old generalizing acc with
  | nil => simp
  | cons o rest ih =>
    simp only [List.foldl_cons, ih]
    by_cases h : scanNewFields o true new = true
    · simp [deletedFieldsStep, h, List.filter_cons]
    · simp [deletedFieldsStep, h, List.filter_cons]

theorem foldl_existingFieldsStep (new : List FieldItem) (acc : List Field) :
    new.foldl existingFieldsStep acc =
      acc ++ new.map
        (fun n => { ID := n.id, Name := n.name, Type_ := n.type, Localized := n.localized,
                    Required := n.required, Disabled := n.disabled, Omitted := n.omitted }) := by
  induction new generalizing acc with
  | nil => simp
  | cons n rest ih => simp [List.foldl_cons, ih, existingFieldsStep]

theorem checkFieldChanges_fst (old new : List FieldItem) :
    (checkFieldChanges old new).1 = new.map
      (fun n => { ID := n.id, Name := n.name, Type_ := n.type, Localized := n.localized,
                  Required := n.required, Disabled := n.disabled, Omitted := n.omitted }) := by
  simp [checkFieldChanges, foldl_existingFieldsStep]

theorem checkFieldChanges_snd (old new : List FieldItem) :
    (checkFieldChanges old new).2 =
      (old.filter (fun o => scanNewFields o true new)).map
        (fun o => { ID := o.id, Name := o.name, Type_ := o.type, Localized := o.localized,
                    Required := o.required, Disabled := o.disabled, Omitted := true }) := by
  simp [checkFieldChanges, foldl_deletedFieldsStep]

theorem mem_ids_iff (new : List FieldItem) (x : String) :
    x ∈ new.map (fun n => n.id) ↔ ∃ n ∈ new, x = n.id := by
  simp only [List.mem_map]
  constructor
  · rintro ⟨n, hn, rfl⟩
    exact ⟨n, hn, rfl⟩
  · rintro ⟨n, hn, rfl⟩
    exact ⟨n, hn, rfl⟩

theorem scanNewFields_eq_decide (o : FieldItem) (new : List FieldItem) :
    scanNewFields o true new = decide (o.id ∉ new.map (fun n => n.id)) := by
  rw [Bool.eq_iff_iff, scanNewFields_true, decide_eq_true_iff, mem_ids_iff]
  constructor
  · rintro h ⟨n, hn, he⟩
    exact h n hn he
  · intro h n hn he
    exact h ⟨n, hn, he⟩

theorem mem_checkFieldChanges_snd (old new : List FieldItem) (f : Field) :
    f ∈ (checkFieldChanges old new).2 ↔
      ∃ o ∈ old, o.id ∉ new.map (fun n => n.id) ∧
        f = { ID := o.id, Name := o.name, Type_ := o.type, Localized := o.localized,
              Required := o.required, Disabled := o.disabled, Omitted := true } := by
  rw [checkFieldChanges_snd]
  simp only [List.mem_map, List.mem_filter, scanNewFields_eq_decide, decide_eq_true_iff]
  constructor
  · rintro ⟨o, ⟨ho, hn⟩, rfl⟩
    exact ⟨o, ho, hn, rfl⟩
  · rintro ⟨o, ho, hn, rfl⟩
    exact ⟨o, ⟨ho, hn⟩, rfl⟩

/-! ### Shared lemmas about the drivers -/

theorem setContentTypeProperties_eq (d : ResourceData) (ct : ContentType) :
    setContentTypeProperties d ct = (none, { d with version := some ct.Sys.Version }) := rfl

theorem createContentType_eq (d : ResourceData) (space : Space) :
    createContentType d space =
      { Sys := { ID := "", Version := 0 }
        Name := d.name
        Description := d.description
        DisplayField := d.display_field
        Fields := d.field.map (fun n =>
          { ID := n.id, Name := n.name, Type_ := n.type, Localized := n.localized,
            Required := n.required, Disabled := n.disabled, Omitted := n.omitted }) } := by
  have key : ∀ (l : List FieldItem) (ct : ContentType),
      l.foldl createFieldsStep ct =
        { ct with Fields := ct.Fields ++ l.map (fun n =>
          { ID := n.id, Name := n.name, Type_ := n.type, Localized := n.localized,
            Required := n.required, Disabled := n.disabled, Omitted := n.omitted }) } := by
    intro l
    induction l with
    | nil => intro ct; simp
    | cons n rest ih => intro ct; simp [List.foldl_cons, ih, createFieldsStep]
  simp [createContentType, key, Space.NewContentType]

/-- Every run of `resourceContentTypeUpdate` follows one of eight paths,
determined by the answers of the remote and by whether a field was removed. -/
theorem resourceContentTypeUpdate_cases (d : ResourceData) (m : Remote) :
    (∃ e, m.GetSpace [] d.space_id = .error e ∧
      resourceContentTypeUpdate d m = ⟨some e, d, [⟨.GetSpace d.space_id, some e⟩]⟩) ∨
    (∃ space, m.GetSpace [] d.space_id = .ok space ∧
      ((∃ e, m.GetContentType [⟨.GetSpace d.space_id, none⟩] space d.Id = .error e ∧
        resourceContentTypeUpdate d m =
          ⟨some e, d, [⟨.GetSpace d.space_id, none⟩,
            ⟨.GetContentType space d.Id, some e⟩]⟩) ∨
      (∃ ct, m.GetContentType [⟨.GetSpace d.space_id, none⟩] space d.Id = .ok ct ∧
        ((∃ e, m.Save [⟨.GetSpace d.space_id, none⟩, ⟨.GetContentType space d.Id, none⟩]
              (updateFields d (updateScalars d ct)).2.2 = .error e ∧
          resourceContentTypeUpdate d m =
            ⟨some e, d, [⟨.GetSpace d.space_id, none⟩, ⟨.GetContentType space d.Id, none⟩,
              ⟨.Save (updateFields d (updateScalars d ct)).2.2, some e⟩]⟩) ∨
        (∃ ct1, m.Save [⟨.GetSpace d.space_id, none⟩, ⟨.GetContentType space d.Id, none⟩]
              (updateFields d (updateScalars d ct)).2.2 = .ok ct1 ∧
          ((∃ e, m.Activate [⟨.GetSpace d.space_id, none⟩,
                ⟨.GetContentType space d.Id, none⟩,
                ⟨.Save (updateFields d (updateScalars d ct)).2.2, none⟩] ct1 = .error e ∧
            resourceContentTypeUpdate d m =
              ⟨some e, d, [⟨.GetSpace d.space_id, none⟩, ⟨.GetContentType space d.Id, none⟩,
                ⟨.Save (updateFields d (updateScalars d ct)).2.2, none⟩,
                ⟨.Activate ct1, some e⟩]⟩) ∨
          (∃ ct2, m.Activate [⟨.GetSpace d.space_id, none⟩,
                ⟨.GetContentType space d.Id, none⟩,
                ⟨.Save (updateFields d (updateScalars d ct)).2.2, none⟩] ct1 = .ok ct2 ∧
            (((updateFields d (updateScalars d ct)).2.1 = [] ∧
              resourceContentTypeUpdate d m =
                ⟨none, { d with version := some ct2.Sys.Version },
                  [⟨.GetSpace d.space_id, none⟩, ⟨.GetContentType space d.Id, none⟩,
                   ⟨.Save (updateFields d (updateScalars d ct)).2.2, none⟩,
                   ⟨.Activate ct1, none⟩]⟩) ∨
            ((updateFields d (updateScalars d ct)).2.1 ≠ [] ∧
              ((∃ e, m.Save [⟨.GetSpace d.space_id, none⟩,
                    ⟨.GetContentType space d.Id, none⟩,
                    ⟨.Save (updateFields d (updateScalars d ct)).2.2, none⟩,
                    ⟨.Activate ct1, none⟩]
                    { ct2 with Fields := (updateFields d (updateScalars d ct)).1 } = .error e ∧
                resourceContentTypeUpdate d m =
                  ⟨some e, d, [⟨.GetSpace d.space_id, none⟩,
                    ⟨.GetContentType space d.Id, none⟩,
                    ⟨.Save (updateFields d (updateScalars d ct)).2.2, none⟩,
                    ⟨.Activate ct1, none⟩,
                    ⟨.Save { ct2 with Fields := (updateFields d (updateScalars d ct)).1 },
                      some e⟩]⟩) ∨
              (∃ ct4, m.Save [⟨.GetSpace d.space_id, none⟩,
                    ⟨.GetContentType space d.Id, none⟩,
                    ⟨.Save (updateFields d (updateScalars d ct)).2.2, none⟩,
                    ⟨.Activate ct1, none⟩]
                    { ct2 with Fields := (updateFields d (updateScalars d ct)).1 } = .ok ct4 ∧
                ((∃ e, m.Activate [⟨.GetSpace d.space_id, none⟩,
                      ⟨.GetContentType space d.Id, none⟩,
                      ⟨.Save (updateFields d (updateScalars d ct)).2.2, none⟩,
                      ⟨.Activate ct1, none⟩,
                      ⟨.Save { ct2 with Fields := (updateFields d (updateScalars d ct)).1 },
                        none⟩] ct4 = .error e ∧
                  resourceContentTypeUpdate d m =
                    ⟨some e, d, [⟨.GetSpace d.space_id, none⟩,
                      ⟨.GetContentType space d.Id, none⟩,
                      ⟨.Save (updateFields d (updateScalars d ct)).2.2, none⟩,
                      ⟨.Activate ct1, none⟩,
                      ⟨.Save { ct2 with Fields := (updateFields d (updateScalars d ct)).1 },
                        none⟩,
                      ⟨.Activate ct4, some e⟩]⟩) ∨
                (∃ ct5, m.Activate [⟨.GetSpace d.space_id, none⟩,
                      ⟨.GetContentType space d.Id, none⟩,
                      ⟨.Save (updateFields d (updateScalars d ct)).2.2, none⟩,
                      ⟨.Activate ct1, none⟩,
                      ⟨.Save { ct2 with Fields := (updateFields d (updateScalars d ct)).1 },
                        none⟩] ct4 = .ok ct5 ∧
                  resourceContentTypeUpdate d m =
                    ⟨none, { d with version := some ct5.Sys.Version },
                      [⟨.GetSpace d.space_id, none⟩,
                       ⟨.GetContentType space d.Id, none⟩,
                       ⟨.Save (updateFields d (updateScalars d ct)).2.2, none⟩,
                       ⟨.Activate ct1, none⟩,
                       ⟨.Save { ct2 with Fields := (updateFields d (updateScalars d ct)).1 },
                         none⟩,
                       ⟨.Activate ct4, none⟩]⟩))))))))))))) := by
  cases hgs : m.GetSpace [] d.space_id with
  | error e => exact Or.inl ⟨e, rfl, by simp [resourceContentTypeUpdate, hgs]⟩
  | ok space =>
    refine Or.inr ⟨space, rfl, ?_⟩
    cases hgc : m.GetContentType [⟨.GetSpace d.space_id, none⟩] space d.Id with
    | error e => exact Or.inl ⟨e, rfl, by simp [resourceContentTypeUpdate, hgs, hgc]⟩
    | ok ct =>
      refine Or.inr ⟨ct, rfl, ?_⟩
      cases hs1 : m.Save [⟨.GetSpace d.space_id, none⟩, ⟨.GetContentType space d.Id, none⟩]
          (updateFields d (updateScalars d ct)).2.2 with
      | error e => exact Or.inl ⟨e, rfl, by simp [resourceContentTypeUpdate, hgs, hgc, hs1]⟩
      | ok ct1 =>
        refine Or.inr ⟨ct1, rfl, ?_⟩
        cases ha1 : m.Activate [⟨.GetSpace d.space_id, none⟩,
            ⟨.GetContentType space d.Id, none⟩,
            ⟨.Save (updateFields d (updateScalars d ct)).2.2, none⟩] ct1 with
        | error e =>
          exact Or.inl ⟨e, rfl, by simp [resourceContentTypeUpdate, hgs, hgc, hs1, ha1]⟩
        | ok ct2 =>
          refine Or.inr ⟨ct2, rfl, ?_⟩
          by_cases hdel : (updateFields d (updateScalars d ct)).2.1 = []
          · exact Or.inl ⟨hdel, by
              simp [resourceContentTypeUpdate, hgs, hgc, hs1, ha1, hdel,
                setContentTypeProperties_eq]⟩
          · refine Or.inr ⟨hdel, ?_⟩
            cases hs2 : m.Save [⟨.GetSpace d.space_id, none⟩,
                ⟨.GetContentType space d.Id, none⟩,
                ⟨.Save (updateFields d (updateScalars d ct)).2.2, none⟩,
                ⟨.Activate ct1, none⟩]
                { ct2 with Fields := (updateFields d (updateScalars d ct)).1 } with
            | error e =>
              exact Or.inl ⟨e, rfl, by
                simp [resourceContentTypeUpdate, hgs, hgc, hs1, ha1, hdel, hs2]⟩
            | ok ct4 =>
              refine Or.inr ⟨ct4, rfl, ?_⟩
              cases ha2 : m.Activate [⟨.GetSpace d.space_id, none⟩,
                  ⟨.GetContentType space d.Id, none⟩,
                  ⟨.Save (updateFields d (updateScalars d ct)).2.2, none⟩,
                  ⟨.Activate ct1, none⟩,
                  ⟨.Save { ct2 with Fields := (updateFields d (updateScalars d ct)).1 },
                    none⟩] ct4 with
              | error e =>
                exact Or.inl ⟨e, rfl, by
                  simp [resourceContentTypeUpdate, hgs, hgc, hs1, ha1, hdel, hs2, ha2]⟩
              | ok ct5 =>
                exact Or.inr ⟨ct5, rfl, by
                  simp [resourceContentTypeUpdate, hgs, hgc, hs1, ha1, hdel, hs2, ha2,
                    setContentTypeProperties_eq]⟩

/-- Every run of `resourceContentTypeCreate` follows one of four paths,
determined by the answers of the remote. -/
theorem resourceContentTypeCreate_cases (d : ResourceData) (m : Remote) :
    (∃ e, m.GetSpace [] d.space_id = .error e ∧
      resourceContentTypeCreate d m = ⟨some e, d, [⟨.GetSpace d.space_id, some e⟩]⟩) ∨
    (∃ space, m.GetSpace [] d.space_id = .ok space ∧
      ((∃ e, m.Save [⟨.GetSpace d.space_id, none⟩] (createContentType d space) = .error e ∧
        resourceContentTypeCreate d m =
          ⟨some e, d, [⟨.GetSpace d.space_id, none⟩,
            ⟨.Save (createContentType d space), some e⟩]⟩) ∨
      (∃ ct1, m.Save [⟨.GetSpace d.space_id, none⟩] (createContentType d space) = .ok ct1 ∧
        ((∃ e, m.Activate [⟨.GetSpace d.space_id, none⟩,
              ⟨.Save (createContentType d space), none⟩] ct1 = .error e ∧
          resourceContentTypeCreate d m =
            ⟨some e, d, [⟨.GetSpace d.space_id, none⟩,
              ⟨.Save (createContentType d space), none⟩,
              ⟨.Activate ct1, some e⟩]⟩) ∨
        (∃ ct2, m.Activate [⟨.GetSpace d.space_id, none⟩,
              ⟨.Save (createContentType d space), none⟩] ct1 = .ok ct2 ∧
          resourceContentTypeCreate d m =
            ⟨none, { d with version := some ct2.Sys.Version, Id := ct2.Sys.ID },
              [⟨.GetSpace d.space_id, none⟩,
               ⟨.Save (createContentType d space), none⟩,
               ⟨.Activate ct1, none⟩]⟩))))) := by
  cases hgs : m.GetSpace [] d.space_id with
  | error e => exact Or.inl ⟨e, rfl, by simp [resourceContentTypeCreate, hgs]⟩
  | ok space =>
    refine Or.inr ⟨space, rfl, ?_⟩
    cases hs1 : m.Save [⟨.GetSpace d.space_id, none⟩] (createContentType d space) with
    | error e => exact Or.inl ⟨e, rfl, by simp [resourceContentTypeCreate, hgs, hs1]⟩
    | ok ct1 =>
      refine Or.inr ⟨ct1, rfl, ?_⟩
      cases ha1 : m.Activate [⟨.GetSpace d.space_id, none⟩,
          ⟨.Save (createContentType d space), none⟩] ct1 with
      | error e => exact Or.inl ⟨e, rfl, by simp [resourceContentTypeCreate, hgs, hs1, ha1]⟩
      | ok ct2 =>
        exact Or.inr ⟨ct2, rfl, by
          simp [resourceContentTypeCreate, hgs, hs1, ha1, setContentTypeProperties_eq,
            ResourceData.SetId]⟩

theorem updateFields_unchanged (d : ResourceData) (ct : ContentType)
    (hc : d.HasChangeField = false) : updateFields d ct = ([], [], ct) := by
  simp [updateFields, hc]

theorem updateFields_changed (d : ResourceData) (ct : ContentType)
    (hc : d.HasChangeField = true) :
    (updateFields d ct).1 = (checkFieldChanges d.fieldOld d.field).1 ∧
    (updateFields d ct).2.1 = (checkFieldChanges d.fieldOld d.field).2 ∧
    (updateFields d ct).2.2 =
      { ct with Fields := (checkFieldChanges d.fieldOld d.field).1 ++
          (checkFieldChanges d.fieldOld d.field).2 } := by
  by_cases hdel : (checkFieldChanges d.fieldOld d.field).2 = []
  · simp [updateFields, hc, ResourceData.GetChangeField, hdel]
  · simp [updateFields, hc, ResourceData.GetChangeField, hdel]

/-- The run of `resourceContentTypeUpdate` when the field set changed, some
old id is absent from `new`, and every remote call succeeds. -/
theorem update_removed_run (d : ResourceData) (m : Remote)
    (hc : d.HasChangeField = true)
    (hrem : ∃ o ∈ d.fieldOld, o.id ∉ d.field.map (fun n => n.id))
    (hok : ∀ ev ∈ (resourceContentTypeUpdate d m).trace, ev.err = none) :
    ∃ (space : Space) (ct ct1 ct2 ct4 ct5 : ContentType),
      resourceContentTypeUpdate d m =
        ⟨none, { d with version := some ct5.Sys.Version },
          [⟨.GetSpace d.space_id, none⟩,
           ⟨.GetContentType space d.Id, none⟩,
           ⟨.Save { updateScalars d ct with
              Fields := (checkFieldChanges d.fieldOld d.field).1 ++
                (checkFieldChanges d.fieldOld d.field).2 }, none⟩,
           ⟨.Activate ct1, none⟩,
           ⟨.Save { ct2 with Fields := (checkFieldChanges d.fieldOld d.field).1 }, none⟩,
           ⟨.Activate ct4, none⟩]⟩ := by
  have hdel : (checkFieldChanges d.fieldOld d.field).2 ≠ [] := by
    obtain ⟨o, ho, hn⟩ := hrem
    intro h
    have hmem := (mem_checkFieldChanges_snd d.fieldOld d.field _).2 ⟨o, ho, hn, rfl⟩
    rw [h] at hmem
    exact absurd hmem (List.not_mem_nil _)
  rcases resourceContentTypeUpdate_cases d m with
    ⟨e, _, hR⟩ | ⟨space, _, ⟨e, _, hR⟩ | ⟨ct, _, ⟨e, _, hR⟩ | ⟨ct1, _, ⟨e, _, hR⟩ |
      ⟨ct2, _, ⟨hnil, _⟩ | ⟨_, ⟨e, _, hR⟩ | ⟨ct4, _, ⟨e, _, hR⟩ | ⟨ct5, _, hR⟩⟩⟩⟩⟩⟩⟩
  · rw [hR] at hok; simp at hok
  · rw [hR] at hok; simp at hok
  · rw [hR] at hok; simp at hok
  · rw [hR] at hok; simp at hok
  · rw [(updateFields_changed d _ hc).2.1] at hnil
    exact absurd hnil hdel
  · rw [hR] at hok; simp at hok
  · rw [hR] at hok; simp at hok
  · refine ⟨space, ct, ct1, ct2, ct4, ct5, ?_⟩
    rw [hR, (updateFields_changed d _ hc).2.2, (updateFields_changed d _ hc).1]

theorem hasChangeField_of_removed (d : ResourceData) (o : FieldItem)
    (ho : o ∈ d.fieldOld) (hn : o.id ∉ d.field.map (fun n => n.id)) :
    d.HasChangeField = true := by
  have hne : d.fieldOld ≠ d.field := by
    intro h
    rw [h] at ho
    exact hn (List.mem_map.2 ⟨o, ho, rfl⟩)
  simp [ResourceData.HasChangeField, hne]

/-! ### The differ -/

/-- C1: the first result of `checkFieldChanges old new` has the length of
`new`, its element at every position carries exactly the seven attribute
values of the element of `new` at that position, and it does not depend on
`old`. -/
theorem checkFieldChanges_final_fidelity (old new : List FieldItem) :
    (checkFieldChanges old new).1.length = new.length ∧
    (∀ i : Nat, (checkFieldChanges old new).1[i]? =
      (new[i]?).map (fun n =>
        { ID := n.id, Name := n.name, Type_ := n.type, Localized := n.localized,
          Required := n.required, Disabled := n.disabled, Omitted := n.omitted })) ∧
    (∀ old2 : List FieldItem,
      (checkFieldChanges old2 new).1 = (checkFieldChanges old new).1) := by
  refine ⟨?_, ?_, ?_⟩
  · simp [checkFieldChanges_fst]
  · intro i
    simp [checkFieldChanges_fst]
  · intro old2
    simp [checkFieldChanges_fst]

/-- C2: the second result of `checkFieldChanges old new` is, in the order of
`old`, the list of the old fields whose id is the id of no field of `new`,
each copied with `Omitted` set and the six other attributes as in the old field. -/
theorem checkFieldChanges_removed_marked (old new : List FieldItem) :
    (checkFieldChanges old new).2 =
      (old.filter (fun o => decide (o.id ∉ new.map (fun n => n.id)))).map
        (fun o =>
          { ID := o.id, Name := o.name, Type_ := o.type, Localized := o.localized,
            Required := o.required, Disabled := o.disabled, Omitted := true }) := by
  rw [checkFieldChanges_snd]
  congr 2
  funext o
  exact scanNewFields_eq_decide o new

/-- C3: when every id of `old` is the id of some field of `new`, whatever the
other attributes of that field, the second result of `checkFieldChanges` is empty. -/
theorem checkFieldChanges_no_removal (old new : List FieldItem)
    (h : ∀ o ∈ old, ∃ n ∈ new, o.id = n.id) :
    (checkFieldChanges old new).2 = [] := by
  rw [checkFieldChanges_snd, List.map_eq_nil_iff, List.filter_eq_nil_iff]
  intro o ho
  rw [scanNewFields_true]
  obtain ⟨n, hn, he⟩ := h o ho
  intro hall
  exact hall n hn he

/-- C3, exercised: the old field `a` is matched by a new field `a` that
differs in every other attribute, next to an added field `c`. -/
theorem checkFieldChanges_no_removal_witness :
    (∀ o ∈ [fieldA], ∃ n ∈ [fieldC, fieldA2], o.id = n.id) ∧
    (checkFieldChanges [fieldA] [fieldC, fieldA2]).2 = [] :=
  ⟨by simp [fieldA, fieldA2, fieldC],
   checkFieldChanges_no_removal [fieldA] [fieldC, fieldA2] (by simp [fieldA, fieldA2, fieldC])⟩

/-- C6, refuted as stated: removing the enabled field `b` yields a
transitional entry whose `Disabled` is `false`. -/
theorem checkFieldChanges_removed_not_disabled :
    (checkFieldChanges [fieldA, fieldB] [fieldA]).2 =
        [{ ID := "b", Name := "Body", Type_ := "Text", Localized := false, Required := true,
           Disabled := false, Omitted := true }] ∧
    ¬ (∀ f ∈ (checkFieldChanges [fieldA, fieldB] [fieldA]).2,
        f.Disabled = true ∧ f.Omitted = true) := by
  have h : (checkFieldChanges [fieldA, fieldB] [fieldA]).2 =
      [{ ID := "b", Name := "Body", Type_ := "Text", Localized := false, Required := true,
         Disabled := false, Omitted := true }] := by
    simp [checkFieldChanges, deletedFieldsStep, scanNewFields, fieldA, fieldB]
  refine ⟨h, ?_⟩
  rw [h]
  simp

/-- C6, amended: every entry of the second result of `checkFieldChanges` has
`Omitted` set, and comes from an old field of the same id, absent from `new`,
whose recorded `disabled` value it keeps; and in every run of
`resourceContentTypeUpdate` that removes an old field, whether or not the
remote calls succeed, each `Save` the run makes is either the first one, which
submits the entry of that field, or the second one, which submits no field of
that id and comes after a first `Save` that submitted the entry and an
`Activate`, both accepted by the remote. -/
theorem removed_field_soft_deleted (d : ResourceData) (m : Remote) :
    (∀ f ∈ (checkFieldChanges d.fieldOld d.field).2,
      f.Omitted = true ∧
      ∃ o ∈ d.fieldOld, o.id ∉ d.field.map (fun n => n.id) ∧
        f.ID = o.id ∧ f.Disabled = o.disabled) ∧
    (∀ o ∈ d.fieldOld, o.id ∉ d.field.map (fun n => n.id) →
      ∀ (k : Nat) (ct : ContentType) (r : Option Err),
        (resourceContentTypeUpdate d m).trace[k]? = some ⟨.Save ct, r⟩ →
        (k = 2 ∧
          { ID := o.id, Name := o.name, Type_ := o.type, Localized := o.localized,
            Required := o.required, Disabled := o.disabled, Omitted := true } ∈ ct.Fields) ∨
        (k = 4 ∧ (∀ f ∈ ct.Fields, f.ID ≠ o.id) ∧
          ∃ c1 a1 : ContentType,
            (resourceContentTypeUpdate d m).trace[2]? = some ⟨.Save c1, none⟩ ∧
            { ID := o.id, Name := o.name, Type_ := o.type, Localized := o.localized,
              Required := o.required, Disabled := o.disabled, Omitted := true } ∈ c1.Fields ∧
            (resourceContentTypeUpdate d m).trace[3]? = some ⟨.Activate a1, none⟩)) := by
  refine ⟨?_, ?_⟩
  · intro f hf
    obtain ⟨o, ho, hn, rfl⟩ := (mem_checkFieldChanges_snd d.fieldOld d.field f).1 hf
    exact ⟨rfl, o, ho, hn, rfl, rfl⟩
  · intro o ho hn k ct r hk
    have hc : d.HasChangeField = true := hasChangeField_of_removed d o ho hn
    have hmem : (⟨o.id, o.name, o.type, o.localized, o.required, o.disabled, true⟩ : Field) ∈
        (checkFieldChanges d.fieldOld d.field).2 :=
      (mem_checkFieldChanges_snd d.fieldOld d.field _).2 ⟨o, ho, hn, rfl⟩
    have hdel : ∀ c, (updateFields d c).2.1 ≠ [] := by
      intro c h
      rw [(updateFields_changed d c hc).2.1] at h
      rw [h] at hmem
      exact absurd hmem (List.not_mem_nil _)
    have h1 : ∀ c,
        (⟨o.id, o.name, o.type, o.localized, o.required, o.disabled, true⟩ : Field) ∈
          (updateFields d c).2.2.Fields := by
      intro c
      rw [(updateFields_changed d c hc).2.2]
      exact List.mem_append_right _ hmem
    have h2 : ∀ c, ∀ f ∈ (updateFields d c).1, f.ID ≠ o.id := by
      intro c f hf hfo
      rw [(updateFields_changed d c hc).1, checkFieldChanges_fst, List.mem_map] at hf
      obtain ⟨n, hn2, rfl⟩ := hf
      exact hn (List.mem_map.2 ⟨n, hn2, hfo⟩)
    rcases resourceContentTypeUpdate_cases d m with
      ⟨e, _, hR⟩ | ⟨space, _, ⟨e, _, hR⟩ | ⟨c0, _, ⟨e, _, hR⟩ | ⟨ct1, _, ⟨e, _, hR⟩ |
        ⟨ct2, _, ⟨hnil, _⟩ | ⟨_, ⟨e, _, hR⟩ | ⟨ct4, _, ⟨e, _, hR⟩ | ⟨ct5, _, hR⟩⟩⟩⟩⟩⟩⟩
    all_goals
      first
        | exact absurd hnil (hdel _)
        | skip
    all_goals
      rw [hR] at hk ⊢
      rcases k with _ | _ | _ | _ | _ | _ | k <;> simp at hk
    all_goals
      obtain ⟨rfl, rfl⟩ := hk
      first
        | exact Or.inl ⟨rfl, h1 _⟩
        | exact Or.inr ⟨rfl, h2 _, _, _, rfl, h1 _, rfl⟩

/-- C6, amended, exercised on the removal of the enabled field `b`, in a run
whose second `Save` is rejected. -/
theorem removed_field_soft_deleted_witness :
    (({ ID := "b", Name := "Body", Type_ := "Text", Localized := false, Required := true,
        Disabled := false, Omitted := true } : Field) ∈
        (checkFieldChanges dataRemoveB.fieldOld dataRemoveB.field).2 ∧
      (({ ID := "b", Name := "Body", Type_ := "Text", Localized := false, Required := true,
          Disabled := false, Omitted := true } : Field).Omitted = true ∧
       ∃ o ∈ dataRemoveB.fieldOld, o.id ∉ dataRemoveB.field.map (fun n => n.id) ∧
        ({ ID := "b", Name := "Body", Type_ := "Text", Localized := false, Required := true,
           Disabled := false, Omitted := true } : Field).ID = o.id ∧
        ({ ID := "b", Name := "Body", Type_ := "Text", Localized := false, Required := true,
           Disabled := false, Omitted := true } : Field).Disabled = o.disabled)) ∧
    ((fieldB ∈ dataRemoveB.fieldOld ∧
      fieldB.id ∉ dataRemoveB.field.map (fun n => n.id) ∧
      (resourceContentTypeUpdate dataRemoveB remoteSecondSaveFails).trace[4]? =
        some ⟨.Save
          { Sys := { ID := "ct1", Version := 4 }
            Name := "Article"
            Description := "first draft"
            DisplayField := "a"
            Fields := (checkFieldChanges [fieldA, fieldB] [fieldA, fieldC]).1 },
          some "version conflict"⟩) ∧
     ((4 = 2 ∧
        { ID := fieldB.id, Name := fieldB.name, Type_ := fieldB.type,
          Localized := fieldB.localized, Required := fieldB.required,
          Disabled := fieldB.disabled, Omitted := true } ∈
          (checkFieldChanges [fieldA, fieldB] [fieldA, fieldC]).1) ∨
      (4 = 4 ∧
        (∀ f ∈ (checkFieldChanges [fieldA, fieldB] [fieldA, fieldC]).1, f.ID ≠ fieldB.id) ∧
        ∃ c1 a1 : ContentType,
          (resourceContentTypeUpdate dataRemoveB remoteSecondSaveFails).trace[2]? =
            some ⟨.Save c1, none⟩ ∧
          { ID := fieldB.id, Name := fieldB.name, Type_ := fieldB.type,
            Localized := fieldB.localized, Required := fieldB.required,
            Disabled := fieldB.disabled, Omitted := true } ∈ c1.Fields ∧
          (resourceContentTypeUpdate dataRemoveB remoteSecondSaveFails).trace[3]? =
            some ⟨.Activate a1, none⟩))) :=
  ⟨⟨by decide, (removed_field_soft_deleted dataRemoveB remoteSecondSaveFails).1 _ (by decide)⟩,
   ⟨⟨by decide, by decide, by decide⟩,
    (removed_field_soft_deleted dataRemoveB remoteSecondSaveFails).2 fieldB (by decide)
      (by decide) 4
      { Sys := { ID := "ct1", Version := 4 }
        Name := "Article"
        Description := "first draft"
        DisplayField := "a"
        Fields := (checkFieldChanges [fieldA, fieldB] [fieldA, fieldC]).1 }
      (some "version conflict") (by decide)⟩⟩

/-- C10: no id of the second result of `checkFieldChanges` is an id of the
first; when the ids of `old` are pairwise distinct and so are the ids of
`new`, the ids of the first result followed by the second are pairwise
distinct; and that collection is the one `resourceContentTypeUpdate` puts on
the content type for its first `Save` when the field set changed. -/
theorem checkFieldChanges_ids_distinct (old new : List FieldItem) :
    (∀ f ∈ (checkFieldChanges old new).2, ∀ g ∈ (checkFieldChanges old new).1,
      f.ID ≠ g.ID) ∧
    ((old.map (fun o => o.id)).Nodup → (new.map (fun n => n.id)).Nodup →
      (((checkFieldChanges old new).1 ++ (checkFieldChanges old new).2).map
        (fun f => f.ID)).Nodup) ∧
    (∀ (d : ResourceData) (ct : ContentType),
      d.fieldOld = old → d.field = new → d.HasChangeField = true →
      (updateFields d ct).2.2.Fields =
        (checkFieldChanges old new).1 ++ (checkFieldChanges old new).2) := by
  have hdisj : ∀ f ∈ (checkFieldChanges old new).2, ∀ g ∈ (checkFieldChanges old new).1,
      f.ID ≠ g.ID := by
    intro f hf g hg hfg
    obtain ⟨o, _, hn, rfl⟩ := (mem_checkFieldChanges_snd old new f).1 hf
    rw [checkFieldChanges_fst, List.mem_map] at hg
    obtain ⟨n, hn2, rfl⟩ := hg
    exact hn (List.mem_map.2 ⟨n, hn2, hfg.symm⟩)
  refine ⟨hdisj, ?_, ?_⟩
  · intro hold hnew
    rw [List.map_append, List.nodup_append]
    refine ⟨?_, ?_, ?_⟩
    · rw [checkFieldChanges_fst, List.map_map]
      exact hnew
    · rw [checkFieldChanges_snd, List.map_map]
      exact (hold.sublist ((List.filter_sublist old).map (fun o => o.id)))
    · intro x hx1 hx2
      obtain ⟨g, hg, rfl⟩ := List.mem_map.1 hx1
      obtain ⟨f, hf, hfg⟩ := List.mem_map.1 hx2
      exact hdisj f hf g hg hfg
  · intro d ct h1 h2 hc
    subst h1 h2
    by_cases hdel : (checkFieldChanges d.fieldOld d.field).2 = []
    · simp [updateFields, hc, ResourceData.GetChangeField, hdel]
    · simp [updateFields, hc, ResourceData.GetChangeField, hdel]

/-- C10, exercised: old fields `a`, `b` and new fields `a`, `c`. -/
theorem checkFieldChanges_ids_distinct_witness :
    ((({ ID := "b", Name := "Body", Type_ := "Text", Localized := false, Required := true,
         Disabled := false, Omitted := true } : Field) ∈
        (checkFieldChanges [fieldA, fieldB] [fieldA, fieldC]).2 ∧
      ({ ID := "a", Name := "Title", Type_ := "Text", Localized := false, Required := true,
         Disabled := false, Omitted := false } : Field) ∈
        (checkFieldChanges [fieldA, fieldB] [fieldA, fieldC]).1) ∧
     ({ ID := "b", Name := "Body", Type_ := "Text", Localized := false, Required := true,
        Disabled := false, Omitted := true } : Field).ID ≠
     ({ ID := "a", Name := "Title", Type_ := "Text", Localized := false, Required := true,
        Disabled := false, Omitted := false } : Field).ID) ∧
    ((([fieldA, fieldB].map (fun o => o.id)).Nodup ∧
       ([fieldA, fieldC].map (fun n => n.id)).Nodup) ∧
     (((checkFieldChanges [fieldA, fieldB] [fieldA, fieldC]).1 ++
       (checkFieldChanges [fieldA, fieldB] [fieldA, fieldC]).2).map
         (fun f => f.ID)).Nodup) ∧
    ((dataRemoveB.fieldOld = [fieldA, fieldB] ∧ dataRemoveB.field = [fieldA, fieldC] ∧
      dataRemoveB.HasChangeField = true) ∧
     (updateFields dataRemoveB remoteContentType).2.2.Fields =
       (checkFieldChanges [fieldA, fieldB] [fieldA, fieldC]).1 ++
         (checkFieldChanges [fieldA, fieldB] [fieldA, fieldC]).2) :=
  ⟨⟨⟨by decide, by decide⟩,
    (checkFieldChanges_ids_distinct [fieldA, fieldB] [fieldA, fieldC]).1 _ (by decide) _
      (by decide)⟩,
   ⟨⟨by decide, by decide⟩,
    (checkFieldChanges_ids_distinct [fieldA, fieldB] [fieldA, fieldC]).2.1
      (by decide) (by decide)⟩,
   ⟨⟨rfl, rfl, by decide⟩,
    (checkFieldChanges_ids_distinct [fieldA, fieldB] [fieldA, fieldC]).2.2
      dataRemoveB remoteContentType rfl rfl (by decide)⟩⟩

/-! ### The drivers -/

/-- C4: in a run of `resourceContentTypeUpdate` where the field set changed,
some old id is absent from `new` and every remote call succeeds, the calls
after the two fetches are `Save`, `Activate`, `Save`, `Activate`; the first
`Save` submits the first result of `checkFieldChanges` followed by the second,
and the second `Save` submits the first result only. -/
theorem update_two_phase (d : ResourceData) (m : Remote)
    (hc : d.HasChangeField = true)
    (hrem : ∃ o ∈ d.fieldOld, o.id ∉ d.field.map (fun n => n.id))
    (hok : ∀ ev ∈ (resourceContentTypeUpdate d m).trace, ev.err = none) :
    ∃ (space : Space) (c1 a1 c2 a2 : ContentType),
      (resourceContentTypeUpdate d m).trace.map (fun ev => ev.call) =
        [.GetSpace d.space_id, .GetContentType space d.Id,
         .Save c1, .Activate a1, .Save c2, .Activate a2] ∧
      c1.Fields = (checkFieldChanges d.fieldOld d.field).1 ++
        (checkFieldChanges d.fieldOld d.field).2 ∧
      c2.Fields = (checkFieldChanges d.fieldOld d.field).1 := by
  obtain ⟨space, ct, ct1, ct2, ct4, ct5, hR⟩ := update_removed_run d m hc hrem hok
  exact ⟨space, _, _, _, _, by rw [hR]; rfl, rfl, rfl⟩

/-- C4, exercised: removing field `b` and adding field `c` against a remote
that accepts every call. -/
theorem update_two_phase_witness :
    (dataRemoveB.HasChangeField = true ∧
      (∃ o ∈ dataRemoveB.fieldOld, o.id ∉ dataRemoveB.field.map (fun n => n.id)) ∧
      ∀ ev ∈ (resourceContentTypeUpdate dataRemoveB remoteOk).trace, ev.err = none) ∧
    ∃ (space : Space) (c1 a1 c2 a2 : ContentType),
      (resourceContentTypeUpdate dataRemoveB remoteOk).trace.map (fun ev => ev.call) =
        [.GetSpace dataRemoveB.space_id, .GetContentType space dataRemoveB.Id,
         .Save c1, .Activate a1, .Save c2, .Activate a2] ∧
      c1.Fields = (checkFieldChanges dataRemoveB.fieldOld dataRemoveB.field).1 ++
        (checkFieldChanges dataRemoveB.fieldOld dataRemoveB.field).2 ∧
      c2.Fields = (checkFieldChanges dataRemoveB.fieldOld dataRemoveB.field).1 :=
  ⟨⟨by decide, ⟨fieldB, by decide, by decide⟩, by decide⟩,
   update_two_phase dataRemoveB remoteOk (by decide) ⟨fieldB, by decide, by decide⟩
     (by decide)⟩

/-- C5: in a run of `resourceContentTypeUpdate` where the field set did not
change and every remote call succeeds, the calls after the two fetches are one
`Save` and one `Activate`, the `Save` submits the fetched content type with
`Name`, `DisplayField` and `Description` taken from the declaration and every
other attribute, the fields included, as fetched, and the run returns no error. -/
theorem update_scalars_only (d : ResourceData) (m : Remote)
    (hc : d.HasChangeField = false)
    (hok : ∀ ev ∈ (resourceContentTypeUpdate d m).trace, ev.err = none) :
    ∃ (space : Space) (ct ct1 : ContentType),
      m.GetSpace [] d.space_id = .ok space ∧
      m.GetContentType [⟨.GetSpace d.space_id, none⟩] space d.Id = .ok ct ∧
      (resourceContentTypeUpdate d m).trace.map (fun ev => ev.call) =
        [.GetSpace d.space_id, .GetContentType space d.Id,
         .Save { Sys := ct.Sys, Name := d.name, Description := d.description,
                 DisplayField := d.display_field, Fields := ct.Fields },
         .Activate ct1] ∧
      (resourceContentTypeUpdate d m).err = none := by
  rcases resourceContentTypeUpdate_cases d m with
    ⟨e, _, hR⟩ | ⟨space, hgs, ⟨e, _, hR⟩ | ⟨ct, hgc, ⟨e, _, hR⟩ | ⟨ct1, _, ⟨e, _, hR⟩ |
      ⟨ct2, _, ⟨_, hR⟩ | ⟨hne, _⟩⟩⟩⟩⟩
  · rw [hR] at hok; simp at hok
  · rw [hR] at hok; simp at hok
  · rw [hR] at hok; simp at hok
  · rw [hR] at hok; simp at hok
  · refine ⟨space, ct, ct1, hgs, hgc, ?_, by rw [hR]⟩
    rw [hR, updateFields_unchanged d _ hc]
    rfl
  · rw [updateFields_unchanged d _ hc] at hne
    exact absurd rfl hne

/-- C5, exercised: only the description differs from the recorded state. -/
theorem update_scalars_only_witness :
    (dataDescriptionOnly.HasChangeField = false ∧
      ∀ ev ∈ (resourceContentTypeUpdate dataDescriptionOnly remoteOk).trace, ev.err = none) ∧
    ∃ (space : Space) (ct ct1 : ContentType),
      remoteOk.GetSpace [] dataDescriptionOnly.space_id = .ok space ∧
      remoteOk.GetContentType [⟨.GetSpace dataDescriptionOnly.space_id, none⟩] space
        dataDescriptionOnly.Id = .ok ct ∧
      (resourceContentTypeUpdate dataDescriptionOnly remoteOk).trace.map (fun ev => ev.call) =
        [.GetSpace dataDescriptionOnly.space_id, .GetContentType space dataDescriptionOnly.Id,
         .Save { Sys := ct.Sys, Name := dataDescriptionOnly.name,
                 Description := dataDescriptionOnly.description,
                 DisplayField := dataDescriptionOnly.display_field, Fields := ct.Fields },
         .Activate ct1] ∧
      (resourceContentTypeUpdate dataDescriptionOnly remoteOk).err = none :=
  ⟨⟨by decide, by decide⟩,
   update_scalars_only dataDescriptionOnly remoteOk (by decide) (by decide)⟩

/-- C9: in a run of `resourceContentTypeCreate` where every remote call
succeeds, the calls are `GetSpace`, one `Save`, one `Activate`; the content
type saved has name, display field and description from the declaration and
one field per declared field, in order, with the seven attributes copied; the
run returns no error, and afterwards the version attribute and the resource id
are the version and the id of the content type as the remote left it. -/
theorem create_success (d : ResourceData) (m : Remote)
    (hok : ∀ ev ∈ (resourceContentTypeCreate d m).trace, ev.err = none) :
    ∃ (space : Space) (ct ct1 ct2 : ContentType),
      ct.Name = d.name ∧ ct.DisplayField = d.display_field ∧
      ct.Description = d.description ∧
      ct.Fields = d.field.map (fun n =>
        { ID := n.id, Name := n.name, Type_ := n.type, Localized := n.localized,
          Required := n.required, Disabled := n.disabled, Omitted := n.omitted }) ∧
      m.GetSpace [] d.space_id = .ok space ∧
      m.Save [⟨.GetSpace d.space_id, none⟩] ct = .ok ct1 ∧
      m.Activate [⟨.GetSpace d.space_id, none⟩, ⟨.Save ct, none⟩] ct1 = .ok ct2 ∧
      (resourceContentTypeCreate d m).trace =
        [⟨.GetSpace d.space_id, none⟩, ⟨.Save ct, none⟩, ⟨.Activate ct1, none⟩] ∧
      (resourceContentTypeCreate d m).err = none ∧
      (resourceContentTypeCreate d m).d.version = some ct2.Sys.Version ∧
      (resourceContentTypeCreate d m).d.Id = ct2.Sys.ID := by
  rcases resourceContentTypeCreate_cases d m with
    ⟨e, _, hR⟩ | ⟨space, hgs, ⟨e, _, hR⟩ | ⟨ct1, hs1, ⟨e, _, hR⟩ | ⟨ct2, ha1, hR⟩⟩⟩
  · rw [hR] at hok; simp at hok
  · rw [hR] at hok; simp at hok
  · rw [hR] at hok; simp at hok
  · refine ⟨space, createContentType d space, ct1, ct2, ?_, ?_, ?_, ?_, hgs, hs1, ha1,
      by rw [hR], by rw [hR], by rw [hR], by rw [hR]⟩ <;> rw [createContentType_eq]

/-- C9, exercised: creating a content type with fields `a` and `b` against a
remote that accepts every call. -/
theorem create_success_witness :
    (∀ ev ∈ (resourceContentTypeCreate dataCreate remoteOk).trace, ev.err = none) ∧
    ∃ (space : Space) (ct ct1 ct2 : ContentType),
      ct.Name = dataCreate.name ∧ ct.DisplayField = dataCreate.display_field ∧
      ct.Description = dataCreate.description ∧
      ct.Fields = dataCreate.field.map (fun n =>
        { ID := n.id, Name := n.name, Type_ := n.type, Localized := n.localized,
          Required := n.required, Disabled := n.disabled, Omitted := n.omitted }) ∧
      remoteOk.GetSpace [] dataCreate.space_id = .ok space ∧
      remoteOk.Save [⟨.GetSpace dataCreate.space_id, none⟩] ct = .ok ct1 ∧
      remoteOk.Activate [⟨.GetSpace dataCreate.space_id, none⟩, ⟨.Save ct, none⟩] ct1
        = .ok ct2 ∧
      (resourceContentTypeCreate dataCreate remoteOk).trace =
        [⟨.GetSpace dataCreate.space_id, none⟩, ⟨.Save ct, none⟩, ⟨.Activate ct1, none⟩] ∧
      (resourceContentTypeCreate dataCreate remoteOk).err = none ∧
      (resourceContentTypeCreate dataCreate remoteOk).d.version = some ct2.Sys.Version ∧
      (resourceContentTypeCreate dataCreate remoteOk).d.Id = ct2.Sys.ID :=
  ⟨by decide, create_success dataCreate remoteOk (by decide)⟩

/-- C7: in a run of `resourceContentTypeUpdate`, if the call at position `k`
of the trace returned the error `e`, then the run returns `e` and that call is
the last one made; the methods called always form an initial segment of
`GetSpace, GetContentType, Save, Activate, Save, Activate`, and `Delete` is
never called. -/
theorem update_fail_fast (d : ResourceData) (m : Remote) :
    (∀ (k : Nat) (c : Call) (e : Err),
      (resourceContentTypeUpdate d m).trace[k]? = some ⟨c, some e⟩ →
      (resourceContentTypeUpdate d m).err = some e ∧
      (resourceContentTypeUpdate d m).trace.length = k + 1) ∧
    (resourceContentTypeUpdate d m).trace.map (fun ev => ev.call.kind) <+:
      [.GetSpace, .GetContentType, .Save, .Activate, .Save, .Activate] ∧
    (∀ ev ∈ (resourceContentTypeUpdate d m).trace, ev.call.kind ≠ .Delete) := by
  rcases resourceContentTypeUpdate_cases d m with
    ⟨e, _, hR⟩ | ⟨space, _, ⟨e, _, hR⟩ | ⟨ct, _, ⟨e, _, hR⟩ | ⟨ct1, _, ⟨e, _, hR⟩ |
      ⟨ct2, _, ⟨_, hR⟩ | ⟨_, ⟨e, _, hR⟩ | ⟨ct4, _, ⟨e, _, hR⟩ | ⟨ct5, _, hR⟩⟩⟩⟩⟩⟩⟩
  all_goals
    rw [hR]
    refine ⟨?_, ?_, ?_⟩
    · intro k c e2 hk
      rcases k with _ | _ | _ | _ | _ | _ | k <;> simp_all
    · simp only [List.map, Call.kind]
      decide
    · simp [Call.kind]

/-- C7, exercised: the second `Save` (position 4) is rejected, so the run
returns its error after five calls. -/
theorem update_fail_fast_witness :
    (resourceContentTypeUpdate dataRemoveB remoteSecondSaveFails).trace[4]? =
      some ⟨.Save
        { Sys := { ID := "ct1", Version := 4 }
          Name := "Article"
          Description := "first draft"
          DisplayField := "a"
          Fields := (checkFieldChanges [fieldA, fieldB] [fieldA, fieldC]).1 },
        some "version conflict"⟩ ∧
    (resourceContentTypeUpdate dataRemoveB remoteSecondSaveFails).err =
      some "version conflict" ∧
    (resourceContentTypeUpdate dataRemoveB remoteSecondSaveFails).trace.length = 4 + 1 :=
  ⟨by decide,
   (update_fail_fast dataRemoveB remoteSecondSaveFails).1 4
     (.Save
       { Sys := { ID := "ct1", Version := 4 }
         Name := "Article"
         Description := "first draft"
         DisplayField := "a"
         Fields := (checkFieldChanges [fieldA, fieldB] [fieldA, fieldC]).1 })
     "version conflict" (by decide)⟩

/-- C8: a run of `resourceContentTypeCreate` or of `resourceContentTypeUpdate`
that returns an error leaves the resource data, hence the resource id and the
version attribute, as they were; in particular so does a create whose `Save`
succeeds and whose `Activate` fails, which returns the error of `Activate`. -/
theorem failed_run_keeps_state (d : ResourceData) (m : Remote) :
    (∀ e : Err, (resourceContentTypeCreate d m).err = some e →
      (resourceContentTypeCreate d m).d = d) ∧
    (∀ e : Err, (resourceContentTypeUpdate d m).err = some e →
      (resourceContentTypeUpdate d m).d = d) ∧
    (∀ (space : Space) (ct1 : ContentType) (e : Err),
      m.GetSpace [] d.space_id = .ok space →
      m.Save [⟨.GetSpace d.space_id, none⟩] (createContentType d space) = .ok ct1 →
      m.Activate [⟨.GetSpace d.space_id, none⟩, ⟨.Save (createContentType d space), none⟩]
        ct1 = .error e →
      (resourceContentTypeCreate d m).err = some e ∧
      (resourceContentTypeCreate d m).d.Id = d.Id ∧
      (resourceContentTypeCreate d m).d.version = d.version) := by
  refine ⟨?_, ?_, ?_⟩
  · intro e he
    rcases resourceContentTypeCreate_cases d m with
      ⟨e, _, hR⟩ | ⟨space, _, ⟨e, _, hR⟩ | ⟨ct1, _, ⟨e, _, hR⟩ | ⟨ct2, _, hR⟩⟩⟩
    all_goals
      rw [hR] at he ⊢
      try exact absurd he (by simp)
  · intro e he
    rcases resourceContentTypeUpdate_cases d m with
      ⟨e, _, hR⟩ | ⟨space, _, ⟨e, _, hR⟩ | ⟨ct, _, ⟨e, _, hR⟩ | ⟨ct1, _, ⟨e, _, hR⟩ |
        ⟨ct2, _, ⟨_, hR⟩ | ⟨_, ⟨e, _, hR⟩ | ⟨ct4, _, ⟨e, _, hR⟩ | ⟨ct5, _, hR⟩⟩⟩⟩⟩⟩⟩
    all_goals
      rw [hR] at he ⊢
      try exact absurd he (by simp)
  · intro space ct1 e hgs hs1 ha1
    simp [resourceContentTypeCreate, hgs, hs1, ha1]

/-- C8, exercised: a create whose `Save` succeeds and whose `Activate` fails,
and an update whose second `Save` is rejected. -/
theorem failed_run_keeps_state_witness :
    ((resourceContentTypeCreate dataCreate remoteActivateFails).err =
        some "activation failed" ∧
      (resourceContentTypeCreate dataCreate remoteActivateFails).d = dataCreate) ∧
    ((resourceContentTypeUpdate dataRemoveB remoteSecondSaveFails).err =
        some "version conflict" ∧
      (resourceContentTypeUpdate dataRemoveB remoteSecondSaveFails).d = dataRemoveB) ∧
    (resourceContentTypeCreate dataCreate remoteActivateFails).d.Id = "" ∧
    (resourceContentTypeCreate dataCreate remoteActivateFails).d.version = none :=
  ⟨⟨by decide,
    (failed_run_keeps_state dataCreate remoteActivateFails).1 "activation failed"
      (by decide)⟩,
   ⟨by decide,
    (failed_run_keeps_state dataRemoveB remoteSecondSaveFails).2.1 "version conflict"
      (by decide)⟩,
   ((failed_run_keeps_state dataCreate remoteActivateFails).2.2
      { ID := "space" } (savedContentType (createContentType dataCreate { ID := "space" }))
      "activation failed" rfl rfl rfl).2⟩

end TerraformContentful
